import Mathlib

/-!
# Verification of the MeowTgPremium transactional core

Shallow embedding of the transactional workflow of `meowpremium.py`:
the balance ledger (user_data sheet), the order audit log (orders sheet),
the config cache, price resolution, the purchase finalize step, admin cash
control, the receipt approval/deny callbacks, and the broadcast fan-out.

Python machine-level details are embedded as follows: sheet cell strings
holding integers become `Int`; Python `float` config values become `ℚ`
(the code only divides and compares them); `int(x)` applied to a quotient
becomes truncation toward zero on `ℚ`; a config value that is absent is
`Option.none` at the outer layer and one that is present but fails
`float()`/`int()` parsing is `some none`; exceptions raised by a sheet
write are enumerated by `WriteOutcome` (success, failure before any cell
was written, failure after the balance cell was written but before the
last-active cell).
-/

namespace MeowPremium

/-- Python `int()` applied to a rational quotient: truncation toward zero. -/
def truncQ (q : ℚ) : Int := if q < 0 then ⌈q⌉ else ⌊q⌋

/-- Value of a non-empty all-digit character run, as Python `int()` reads
it. -/
def digitsToNat (l : List Char) : Nat :=
  l.foldl (fun acc c => acc * 10 + (c.toNat - '0'.toNat)) 0

/-- Python `str.strip()`: leading and trailing whitespace removed. -/
def pyStrip (l : List Char) : List Char :=
  ((l.dropWhile Char.isWhitespace).reverse.dropWhile Char.isWhitespace).reverse

/-- `pyStrip` at the `String` level. -/
def pyStripStr (s : String) : String := String.mk (pyStrip s.data)

/-! ## Config values

A numeric config entry as the handlers see it: `none` = key absent from the
config mapping, `some none` = present but `float()` raises `ValueError`,
`some (some r)` = present and parses to the number `r`. -/

/-- Rate resolution as written in `get_product_keyboard` and
`admin_approve_receipt_callback`: `float(config.get(key, "1000"))` with the
`ValueError` caught and defaulted, then a non-positive value replaced by
`1000.0`. -/
def resolveCoinRate (cfg : Option (Option ℚ)) : ℚ :=
  match cfg with
  | none => 1000
  | some none => 1000
  | some (some r) => if r ≤ 0 then 1000 else r

/-- Per-product price computation in `get_product_keyboard`
(lines 360–403): the MMK price string is parsed (`none` means the key is
absent or `int()` failed, in which case the button is skipped), divided by
the resolved rate, truncated, and clamped to at least 1. -/
def keyboardPriceCoin (priceMmk : Option Int) (rateCfg : Option (Option ℚ)) :
    Option Int :=
  match priceMmk with
  | none => none
  | some p =>
    let r := resolveCoinRate rateCfg
    some (max 1 (truncQ ((p : ℚ) / r)))

/-- Price resolution in `start_product_purchase` (lines 920–942).
Unlike `get_product_keyboard`, the `float()` call on the rate sits inside
the same `try` as the price parse, and its `ValueError` is caught by the
outer `except (ValueError, TypeError)` which aborts with
"Invalid price configuration" instead of defaulting the rate.
`priceMmk = none` is a missing product key ("Product configuration not
found"), `some none` a price string `int()` rejects. -/
def startPurchasePriceCoin (priceMmk : Option (Option Int))
    (rateCfg : Option (Option ℚ)) : Option Int :=
  match priceMmk with
  | none => none
  | some none => none
  | some (some p) =>
    match rateCfg with
    | some none => none
    | none => some (max 1 (truncQ ((p : ℚ) / 1000)))
    | some (some r) =>
      let r' := if r ≤ 0 then (1000 : ℚ) else r
      some (max 1 (truncQ ((p : ℚ) / r')))

/-! ## Config cache (`_read_config_sheet`, `get_config_data`) -/

/-- The module-level `CONFIG_CACHE = {"data": {}, "ts": 0}`. -/
structure ConfigCache where
  data : List (String × String)
  ts : Int
deriving DecidableEq, Repr

/-- `_read_config_sheet` (lines 125–140): on a successful fetch it returns
the records with keys and values stringified and stripped; any exception is
caught and the (still empty) `out` dict is returned. `fetch = none` models
the exceptional read. -/
def readConfigSheet (fetch : Option (List (String × String))) :
    List (String × String) :=
  match fetch with
  | none => []
  | some records => records.map (fun kv => (pyStripStr kv.1, pyStripStr kv.2))

/-- `get_config_data` (lines 143–150): refresh when forced or when the
cached timestamp is older than the TTL, storing whatever
`_read_config_sheet` returned; otherwise serve the cache. Returns the
mapping handed to the caller and the cache afterwards. -/
def get_config_data (force : Bool) (now ttl : Int)
    (fetch : Option (List (String × String))) (c : ConfigCache) :
    List (String × String) × ConfigCache :=
  if force || now - c.ts > ttl then
    let d := readConfigSheet fetch
    (d, ⟨d, now⟩)
  else
    (c.data, c)

/-! ## The ledger (user_data sheet) and the order log (orders sheet) -/

/-- One `user_data` row, the columns the flows touch
(id is the association-list key; column numbers in comments). -/
structure UserRow where
  username : String      -- col 2
  coin_balance : Int     -- col 3
  registration_date : String  -- col 4
  last_active : String   -- col 5
  total_purchase : Int   -- col 6
  banned : Bool          -- col 7
deriving DecidableEq, Repr

/-- One `orders` row as assembled by `log_order` (lines 320–344),
restricted to the fields the flows fill in. -/
structure Order where
  user_id : Nat
  username : String
  product_key : String
  price_mmk : Int
  phone : String
  premium_username : String
  status : String
deriving DecidableEq, Repr

/-- The two mutable sheets: user rows keyed by id (first match wins, as
`WS_USER_DATA.find` returns the first matching cell) and the append-only
order log. -/
structure SheetState where
  users : List (Nat × UserRow)
  orders : List Order
deriving DecidableEq, Repr

/-- `find_user_row` + `row_values`: the first row whose first column holds
the id. -/
def findUser (s : SheetState) (uid : Nat) : Option UserRow :=
  (s.users.find? (fun p => p.1 = uid)).map (·.2)

/-- The balance `get_user_data_from_sheet` reports: the found row's
balance, or the default `"0"` when the row is absent. -/
def readBalance (s : SheetState) (uid : Nat) : Int :=
  ((findUser s uid).map (·.coin_balance)).getD 0

/-- `update_cell` on the first row matching the id; rows further down with
the same id (duplicates the sheet could hold) are untouched. -/
def updateFirst (uid : Nat) (f : UserRow → UserRow) :
    List (Nat × UserRow) → List (Nat × UserRow)
  | [] => []
  | p :: rest =>
    if p.1 = uid then (p.1, f p.2) :: rest else p :: updateFirst uid f rest

/-- How a call to `update_user_balance` can go: both `update_cell`s
succeed; the first (balance) cell write raises; or the second
(last-active) cell write raises after the balance cell was written. -/
inductive WriteOutcome
  | ok
  | failClean
  | failAfterBalance
deriving DecidableEq, Repr

/-- `update_user_balance` (lines 271–284): locate the row (`False` when
missing), write the balance cell then the last-active cell, reporting
`True` only when both writes went through; any exception yields `False`
with whatever cells were already written left in place. -/
def update_user_balance (uid : Nat) (newBalance : Int) (now : String)
    (w : WriteOutcome) (s : SheetState) : Bool × SheetState :=
  match findUser s uid with
  | none => (false, s)
  | some _ =>
    let both := fun r => { r with coin_balance := newBalance, last_active := now }
    let balOnly := fun r => { r with coin_balance := newBalance }
    match w with
    | .ok => (true, { s with users := updateFirst uid both s.users })
    | .failClean => (false, s)
    | .failAfterBalance => (false, { s with users := updateFirst uid balOnly s.users })

/-- `log_order`: `append_row` on the orders sheet. -/
def log_order (o : Order) (s : SheetState) : SheetState :=
  { s with orders := s.orders ++ [o] }

/-! ## Validation helpers -/

/-- Body of `USERNAME_RE = ^@?([a-zA-Z0-9_]{5,32})$` after the optional
`@`. -/
def usernameBodyOk (body : List Char) : Bool :=
  decide (5 ≤ body.length) && decide (body.length ≤ 32) &&
    body.all (fun c => c.isAlphanum || c = '_')

/-- `normalize_username` (lines 485–489): empty string on no match, else
`"@" ++ body`. -/
def normalize_username (raw : String) : String :=
  let body :=
    match raw.data with
    | '@' :: rest => rest
    | l => l
  if usernameBodyOk body then String.mk ('@' :: body) else ""

/-- A non-empty all-digit character run read as a number, `none`
otherwise. -/
def parseNatDigits (l : List Char) : Option Nat :=
  if l ≠ [] && l.all Char.isDigit then some (digitsToNat l) else none

/-- Python `int(s)` on a stripped string, restricted to an optional sign
followed by digits; `none` is the `ValueError` case. -/
def parsePyInt (s : String) : Option Int :=
  match s.data with
  | '-' :: rest => (parseNatDigits rest).map (fun n => -(n : Int))
  | '+' :: rest => (parseNatDigits rest).map (fun n => (n : Int))
  | l => (parseNatDigits l).map (fun n => (n : Int))

/-! ## Purchase finalize (`receive_premium_username`, lines 997–1086) -/

/-- The `context.user_data["product_details"]` dict stored by
`start_product_purchase`. -/
structure ProductDetails where
  product_key : String
  price_mmk : Int
  price_coin : Int
deriving DecidableEq, Repr

/-- What the finalize step did, mirroring its reply branches. -/
inductive PurchaseOutcome
  | invalidUsername
  | detailsLost
  | insufficient (current price : Int)
  | placed (newBalance : Int)
  | writeFailed
deriving DecidableEq, Repr

/-- `receive_premium_username`: validate the username (re-prompting on
failure), re-read the current balance, reject when it is below the coin
price, otherwise debit via `update_user_balance` and append the order row
(status `"PENDING (Coin Paid)"`) only when the write reported success. -/
def receive_premium_username (uid : Nat) (uname : String)
    (details : Option ProductDetails) (phone : Option String)
    (rawUsername : String) (w : WriteOutcome) (now : String)
    (s : SheetState) : SheetState × PurchaseOutcome :=
  let premium := normalize_username rawUsername
  if premium = "" then (s, .invalidUsername)
  else
    match details with
    | none => (s, .detailsLost)
    | some d =>
      let current := readBalance s uid
      if current < d.price_coin then (s, .insufficient current d.price_coin)
      else
        let newBalance := current - d.price_coin
        let res := update_user_balance uid newBalance now w s
        if res.1 then
          (log_order
            { user_id := uid, username := uname, product_key := d.product_key,
              price_mmk := d.price_mmk, phone := phone.getD "",
              premium_username := premium, status := "PENDING (Coin Paid)" }
            res.2,
           .placed newBalance)
        else (res.2, .writeFailed)

/-! ## Cash control (`cash_control_apply_amount`, lines 1181–1228) -/

/-- Reply branches of the amount step. -/
inductive CashControlOutcome
  | targetLost
  | invalidAmount
  | updated (newBalance : Int)
  | writeFailed
deriving DecidableEq, Repr

/-- `cash_control_apply_amount`: with the target id from the session,
parse `int(amount_str)`; a parse failure or a negative value re-prompts
(the handler raises `ValueError("Amount cannot be negative.")` into its own
`except`); otherwise overwrite the balance via `update_user_balance`. -/
def cash_control_apply_amount (target : Option Nat) (amountStr : String)
    (w : WriteOutcome) (now : String) (s : SheetState) :
    SheetState × CashControlOutcome :=
  match target with
  | none => (s, .targetLost)
  | some uid =>
    match parsePyInt amountStr with
    | none => (s, .invalidAmount)
    | some n =>
      if n < 0 then (s, .invalidAmount)
      else
        let res := update_user_balance uid n now w s
        if res.1 then (res.2, .updated n) else (res.2, .writeFailed)

/-! ## Receipt approval workflow
(`admin_approve_receipt_callback` lines 770–855,
`admin_deny_receipt_callback` lines 858–908) -/

/-- Python's `"✅" in text or "❌" in text` idempotency test: membership of
a single character in the message text. -/
def hasTerminalMarker (t : String) : Bool :=
  t.data.contains '✅' || t.data.contains '❌'

/-- `text.split('by', 1)[-1]`: everything after the first occurrence of
`"by"`, or the whole text when `"by"` does not occur. -/
def splitOnceAfter (pat : List Char) : List Char → Option (List Char)
  | [] => none
  | c :: rest =>
    if (c :: rest).take pat.length = pat then some ((c :: rest).drop pat.length)
    else splitOnceAfter pat rest

/-- The `"already processed"` reply: the tail after the first `"by"`,
stripped, with the Python `or 'another admin'` fallback on the empty
string. -/
def alreadyProcessedText (orig : String) : String :=
  let tail :=
    match splitOnceAfter "by".data orig.data with
    | some r => r
    | none => orig.data
  let t := pyStrip tail
  "❗ This receipt has already been processed by " ++
    (if t = [] then "another admin" else String.mk t) ++ "."

/-- The terminal rewrite of the control message on approval (the `{:,}`
digit grouping of the two numbers does not affect anything proved here and
is rendered by `toString`). -/
def approvedMessageText (amount coins : Int) (adminName : String)
    (adminId : Nat) (now : String) (orig : String) : String :=
  "✅ APPROVED (" ++ toString amount ++ " MMK = " ++ toString coins ++
    " Coins) by @" ++ adminName ++ " (id:" ++ toString adminId ++ ") on " ++
    now ++ "\n\n" ++ orig

/-- The control-message rewrite when `update_user_balance` reported
failure. -/
def writeFailedMessageText (uid : Nat) : String :=
  "❌ ERROR: Failed to update user balance for ID " ++ toString uid ++
    ". Please check sheets."

/-- The terminal rewrite of the control message on denial. -/
def deniedMessageText (adminName : String) (adminId : Nat) (now : String)
    (orig : String) : String :=
  "❌ DENIED by @" ++ adminName ++ " (id:" ++ toString adminId ++ ") on " ++
    now ++ "\n\n" ++ orig

/-- Everything `admin_approve_receipt_callback` consumes after its
callback-data parse succeeded: the encoded `{user_id, nonce, amount}`, the
clicking admin, the control message's current text, the
`coin_rate_coin` config entry, the resolved admin id, and the write
outcome. -/
structure ApproveInput where
  userId : Nat
  nonce : Nat
  amount : Int
  fromUserId : Nat
  fromUserName : String
  msgText : String
  rateCfg : Option (Option ℚ)
  adminId : Nat
  w : WriteOutcome
  now : String

inductive ApproveOutcome
  | unauthorized
  | alreadyProcessed
  | approved (coins newBalance : Int)
  | writeFailed
deriving DecidableEq, Repr

/-- The handler's observable result: the sheets, the control message's
text after any `edit_message_text`, and the `(coins, new balance)` pair an
attempted user notification reports (`none` when no notification is
attempted). -/
structure ApproveResult where
  state : SheetState
  msgText : String
  notify : Option (Int × Int)
  outcome : ApproveOutcome
deriving DecidableEq, Repr

/-- `admin_approve_receipt_callback`: authorization against the resolved
admin id, then the terminal-marker check, then
`coins_to_add = int(amount / rate)` with the rate resolved as in
`resolveCoinRate`; the balance cell is written only when
`coins_to_add > 0` (`ok = True` otherwise with no write), and on `ok` the
message is rewritten with the `✅ APPROVED … by @admin` marker and the
user is notified of the new balance. No order row is appended on this
path. -/
def admin_approve_receipt_callback (inp : ApproveInput) (s : SheetState) :
    ApproveResult :=
  if inp.fromUserId ≠ inp.adminId then
    ⟨s, inp.msgText, none, .unauthorized⟩
  else if hasTerminalMarker inp.msgText then
    ⟨s, alreadyProcessedText inp.msgText, none, .alreadyProcessed⟩
  else
    let rate := resolveCoinRate inp.rateCfg
    let coins := truncQ ((inp.amount : ℚ) / rate)
    let current := readBalance s inp.userId
    let newBalance := current + coins
    let res :=
      if coins > 0 then update_user_balance inp.userId newBalance inp.now inp.w s
      else (true, s)
    if res.1 then
      ⟨res.2,
       approvedMessageText inp.amount coins inp.fromUserName inp.fromUserId
         inp.now inp.msgText,
       some (coins, newBalance), .approved coins newBalance⟩
    else
      ⟨res.2, writeFailedMessageText inp.userId, none, .writeFailed⟩

/-- What `admin_deny_receipt_callback` consumes after its parse. -/
structure DenyInput where
  userId : Nat
  nonce : Nat
  fromUserId : Nat
  fromUserName : String
  msgText : String
  adminId : Nat
  now : String

inductive DenyOutcome
  | unauthorized
  | alreadyProcessed
  | denied
deriving DecidableEq, Repr

structure DenyResult where
  state : SheetState
  msgText : String
  notified : Bool
  outcome : DenyOutcome
deriving DecidableEq, Repr

/-- `admin_deny_receipt_callback`: same authorization and terminal-marker
guard; on the live path it only rewrites the message with the
`❌ DENIED by @admin` marker and notifies the user — no ledger access, no
order row. -/
def admin_deny_receipt_callback (inp : DenyInput) (s : SheetState) :
    DenyResult :=
  if inp.fromUserId ≠ inp.adminId then
    ⟨s, inp.msgText, false, .unauthorized⟩
  else if hasTerminalMarker inp.msgText then
    ⟨s, alreadyProcessedText inp.msgText, false, .alreadyProcessed⟩
  else
    ⟨s, deniedMessageText inp.fromUserName inp.fromUserId inp.now inp.msgText,
     true, .denied⟩

/-! ## Broadcast fan-out
(`get_all_user_ids` lines 305–316, `execute_broadcast` lines 1496–1548) -/

/-- `get_all_user_ids`: first-column values minus the header row, keeping
the non-empty all-digit entries as integers. -/
def get_all_user_ids (col : List String) : List Nat :=
  (col.drop 1).filterMap (fun uid => parseNatDigits uid.data)

/-- Tally and attempt trace of `execute_broadcast`'s send loop for a text
broadcast: each recipient's send is attempted in order; a raising send
(`sendOk uid = false`) increments only `failed_count` and the loop
continues. -/
structure BroadcastTally where
  sent : Nat
  failed : Nat
  attempted : List Nat
deriving DecidableEq, Repr

/-- The `for user_id in user_ids` loop of `execute_broadcast`. -/
def execute_broadcast (userIds : List Nat) (sendOk : Nat → Bool) :
    BroadcastTally :=
  userIds.foldl
    (fun acc uid =>
      if sendOk uid then
        { acc with sent := acc.sent + 1, attempted := acc.attempted ++ [uid] }
      else
        { acc with failed := acc.failed + 1, attempted := acc.attempted ++ [uid] })
    ⟨0, 0, []⟩

/-! ## Ledger operations reachable through the defined flows -/

/-- One ledger-touching handler invocation, over arbitrary session and
input data. -/
inductive LedgerOp
  | purchase (uid : Nat) (uname : String) (details : Option ProductDetails)
      (phone : Option String) (rawUsername : String) (w : WriteOutcome)
      (now : String)
  | cashControl (target : Option Nat) (amountStr : String) (w : WriteOutcome)
      (now : String)
  | approve (inp : ApproveInput)
  | deny (inp : DenyInput)

/-- The sheet state after one operation. -/
def applyOp (s : SheetState) (op : LedgerOp) : SheetState :=
  match op with
  | .purchase uid uname details phone raw w now =>
    (receive_premium_username uid uname details phone raw w now s).1
  | .cashControl target amountStr w now =>
    (cash_control_apply_amount target amountStr w now s).1
  | .approve inp => (admin_approve_receipt_callback inp s).state
  | .deny inp => (admin_deny_receipt_callback inp s).state

/-- The sheet state after a sequence of operations. -/
def applyOps (s : SheetState) (ops : List LedgerOp) : SheetState :=
  ops.foldl applyOp s

/-- The balance invariant: every user row holds a non-negative balance. -/
def BalancesNonneg (s : SheetState) : Prop :=
  ∀ p ∈ s.users, 0 ≤ p.2.coin_balance

instance (s : SheetState) : Decidable (BalancesNonneg s) :=
  inferInstanceAs (Decidable (∀ p ∈ s.users, 0 ≤ p.2.coin_balance))

/-! ## Helper lemmas -/

theorem readBalance_nonneg {s : SheetState} (uid : Nat)
    (h : BalancesNonneg s) : 0 ≤ readBalance s uid := by
  unfold readBalance findUser
  cases hf : s.users.find? (fun p => p.1 = uid) with
  | none => simp
  | some p => simpa using h p (List.mem_of_find?_eq_some hf)

theorem updateFirst_nonneg {uid : Nat} {f : UserRow → UserRow}
    {l : List (Nat × UserRow)}
    (hl : ∀ p ∈ l, 0 ≤ p.2.coin_balance)
    (hf : ∀ r, 0 ≤ (f r).coin_balance) :
    ∀ p ∈ updateFirst uid f l, 0 ≤ p.2.coin_balance := by
  induction l with
  | nil => simp [updateFirst]
  | cons a l ih =>
    simp only [updateFirst]
    split
    · intro p hp
      rcases List.mem_cons.mp hp with rfl | hp
      · exact hf a.2
      · exact hl p (List.mem_cons_of_mem _ hp)
    · intro p hp
      rcases List.mem_cons.mp hp with rfl | hp
      · exact hl _ (List.mem_cons_self _ _)
      · exact ih (fun q hq => hl q (List.mem_cons_of_mem _ hq)) p hp

theorem update_user_balance_nonneg {s : SheetState} {b : Int}
    (uid : Nat) (now : String) (w : WriteOutcome)
    (h : BalancesNonneg s) (hb : 0 ≤ b) :
    BalancesNonneg (update_user_balance uid b now w s).2 := by
  unfold update_user_balance
  cases findUser s uid with
  | none => exact h
  | some row =>
    cases w with
    | ok => exact updateFirst_nonneg h (fun r => hb)
    | failClean => exact h
    | failAfterBalance => exact updateFirst_nonneg h (fun r => hb)

theorem update_user_balance_orders (uid : Nat) (b : Int) (now : String)
    (w : WriteOutcome) (s : SheetState) :
    (update_user_balance uid b now w s).2.orders = s.orders := by
  unfold update_user_balance
  cases findUser s uid with
  | none => rfl
  | some row => cases w <;> rfl

theorem update_user_balance_fst_true {uid : Nat} {b : Int} {now : String}
    {w : WriteOutcome} {s : SheetState}
    (h : (update_user_balance uid b now w s).1 = true) :
    (∃ row, findUser s uid = some row) ∧ w = WriteOutcome.ok := by
  unfold update_user_balance at h
  cases hf : findUser s uid with
  | none => rw [hf] at h; exact absurd h (by simp)
  | some row =>
    rw [hf] at h
    cases w with
    | ok => exact ⟨⟨row, rfl⟩, rfl⟩
    | failClean => exact absurd h (by simp)
    | failAfterBalance => exact absurd h (by simp)

theorem update_user_balance_ok {s : SheetState} {uid : Nat} {row : UserRow}
    (b : Int) (now : String) (h : findUser s uid = some row) :
    update_user_balance uid b now WriteOutcome.ok s =
      (true,
        { s with
          users := updateFirst uid
            (fun r => { r with coin_balance := b, last_active := now })
            s.users }) := by
  unfold update_user_balance
  rw [h]

theorem find?_updateFirst (uid : Nat) (f : UserRow → UserRow)
    (l : List (Nat × UserRow)) :
    (updateFirst uid f l).find? (fun p => p.1 = uid) =
      (l.find? (fun p => p.1 = uid)).map (fun p => (p.1, f p.2)) := by
  induction l with
  | nil => rfl
  | cons a l ih =>
    simp only [updateFirst]
    by_cases h : a.1 = uid
    · simp [h, List.find?]
    · simp [h, List.find?, ih]

theorem findUser_updateFirst (s : SheetState) (uid : Nat)
    (f : UserRow → UserRow) :
    findUser { s with users := updateFirst uid f s.users } uid =
      (findUser s uid).map f := by
  unfold findUser
  rw [find?_updateFirst]
  cases s.users.find? (fun p => p.1 = uid) <;> rfl

theorem hasTerminalMarker_append_left {s : String} (t : String)
    (h : s.data.contains '✅' = true ∨ s.data.contains '❌' = true) :
    hasTerminalMarker (s ++ t) = true := by
  unfold hasTerminalMarker
  simp only [String.data_append]
  rcases h with h | h <;> simp at h <;> simp [h]

theorem approvedMessageText_terminal (amount coins : Int) (adminName : String)
    (adminId : Nat) (now orig : String) :
    hasTerminalMarker
      (approvedMessageText amount coins adminName adminId now orig) = true := by
  unfold approvedMessageText
  rw [show "✅ APPROVED (" ++ toString amount ++ " MMK = " ++ toString coins ++
      " Coins) by @" ++ adminName ++ " (id:" ++ toString adminId ++ ") on " ++
      now ++ "\n\n" ++ orig =
    "✅ APPROVED (" ++ (toString amount ++ " MMK = " ++ toString coins ++
      " Coins) by @" ++ adminName ++ " (id:" ++ toString adminId ++ ") on " ++
      now ++ "\n\n" ++ orig) from by simp [String.append_assoc]]
  exact hasTerminalMarker_append_left _ (Or.inl (by simp))

theorem deniedMessageText_terminal (adminName : String) (adminId : Nat)
    (now orig : String) :
    hasTerminalMarker (deniedMessageText adminName adminId now orig) = true := by
  unfold deniedMessageText
  rw [show "❌ DENIED by @" ++ adminName ++ " (id:" ++ toString adminId ++
      ") on " ++ now ++ "\n\n" ++ orig =
    "❌ DENIED by @" ++ (adminName ++ " (id:" ++ toString adminId ++
      ") on " ++ now ++ "\n\n" ++ orig) from by simp [String.append_assoc]]
  exact hasTerminalMarker_append_left _ (Or.inr (by simp))

theorem resolveCoinRate_pos (cfg : Option (Option ℚ)) :
    0 < resolveCoinRate cfg := by
  unfold resolveCoinRate
  rcases cfg with _ | _ | r
  · norm_num
  · norm_num
  · dsimp only
    split
    · norm_num
    · linarith [lt_of_not_le (by assumption : ¬ r ≤ 0)]

theorem truncQ_eq_floor {q : ℚ} (h : 0 ≤ q) : truncQ q = ⌊q⌋ := by
  unfold truncQ
  rw [if_neg (not_lt.mpr h)]

theorem truncQ_div_eq_zero {a r : ℚ} (ha : 0 ≤ a) (hr : 0 < r) (hlt : a < r) :
    truncQ (a / r) = 0 := by
  rw [truncQ_eq_floor (div_nonneg ha hr.le)]
  rw [Int.floor_eq_zero_iff]
  exact ⟨div_nonneg ha hr.le, (div_lt_one hr).mpr hlt⟩

theorem execute_broadcast_foldl (sendOk : Nat → Bool) (userIds : List Nat)
    (acc : BroadcastTally) :
    userIds.foldl
      (fun acc uid =>
        if sendOk uid then
          { acc with sent := acc.sent + 1, attempted := acc.attempted ++ [uid] }
        else
          { acc with failed := acc.failed + 1,
                     attempted := acc.attempted ++ [uid] })
      acc =
      ⟨acc.sent + (userIds.filter (fun u => sendOk u)).length,
       acc.failed + (userIds.filter (fun u => !(sendOk u))).length,
       acc.attempted ++ userIds⟩ := by
  induction userIds generalizing acc with
  | nil => simp
  | cons u rest ih =>
    simp only [List.foldl_cons, List.filter_cons]
    by_cases h : sendOk u
    · simp only [h, if_pos, ih]
      simp [Nat.add_assoc, Nat.add_comm 1]
    · simp only [h, if_neg, Bool.not_false, ih]
      simp only [h, Bool.false_eq_true, not_false_eq_true, if_neg]
      simp [Nat.add_assoc, Nat.add_comm 1]

theorem length_filter_add_length_filter_not (p : Nat → Bool) (l : List Nat) :
    (l.filter (fun u => p u)).length + (l.filter (fun u => !(p u))).length =
      l.length := by
  induction l with
  | nil => rfl
  | cons a l ih =>
    simp only [List.filter_cons]
    by_cases h : p a <;> simp [h, ← ih] <;> omega

theorem applyOp_nonneg (s : SheetState) (op : LedgerOp)
    (h : BalancesNonneg s) : BalancesNonneg (applyOp s op) := by
  cases op with
  | purchase uid uname details phone raw w now =>
    show BalancesNonneg (receive_premium_username uid uname details phone raw w now s).1
    unfold receive_premium_username
    dsimp only
    split
    · exact h
    · cases details with
      | none => exact h
      | some d =>
        dsimp only
        split
        · exact h
        · rename_i hnotlt
          have hnn : BalancesNonneg
              (update_user_balance uid (readBalance s uid - d.price_coin) now w s).2 :=
            update_user_balance_nonneg uid now w h
              (sub_nonneg.mpr (not_lt.mp hnotlt))
          split
          · exact hnn
          · exact hnn
  | cashControl target amountStr w now =>
    show BalancesNonneg (cash_control_apply_amount target amountStr w now s).1
    unfold cash_control_apply_amount
    cases target with
    | none => exact h
    | some uid =>
      dsimp only
      cases parsePyInt amountStr with
      | none => exact h
      | some n =>
        dsimp only
        split
        · exact h
        · rename_i hneg
          have hnn : BalancesNonneg (update_user_balance uid n now w s).2 :=
            update_user_balance_nonneg uid now w h (not_lt.mp hneg)
          split
          · exact hnn
          · exact hnn
  | approve inp =>
    show BalancesNonneg (admin_approve_receipt_callback inp s).state
    unfold admin_approve_receipt_callback
    dsimp only
    split
    · exact h
    · split
      · exact h
      · have hcur : 0 ≤ readBalance s inp.userId := readBalance_nonneg _ h
        by_cases hc : truncQ ((inp.amount : ℚ) / resolveCoinRate inp.rateCfg) > 0
        · have hnn : BalancesNonneg
              (update_user_balance inp.userId
                (readBalance s inp.userId +
                  truncQ ((inp.amount : ℚ) / resolveCoinRate inp.rateCfg))
                inp.now inp.w s).2 :=
            update_user_balance_nonneg _ _ _ h (by omega)
          rw [if_pos hc]
          split
          · exact hnn
          · exact hnn
        · rw [if_neg hc]
          split
          · exact h
          · exact h
  | deny inp =>
    show BalancesNonneg (admin_deny_receipt_callback inp s).state
    unfold admin_deny_receipt_callback
    split
    · exact h
    · split
      · exact h
      · exact h

/-! ## Claim theorems -/

/-- C1: for every user and every sequence of ledger operations reachable
through the defined flows (purchase finalize, admin cash control, receipt
approval/denial), every row's `coin_balance` remains a non-negative
integer: starting from a ledger whose balances are all non-negative, any
sequence of flow operations — over arbitrary inputs, parse results and
write outcomes — preserves the invariant, because each caller rejects a
would-be-negative result before invoking the balance write. -/
theorem coin_balance_never_negative (ops : List LedgerOp) (s : SheetState)
    (h : BalancesNonneg s) : BalancesNonneg (applyOps s ops) := by
  unfold applyOps
  induction ops generalizing s with
  | nil => exact h
  | cons op rest ih => exact ih _ (applyOp_nonneg s op h)

/-- Witness for C1: a concrete non-negative ledger stays non-negative
across a purchase, a cash-control write, an approval and a denial. -/
theorem coin_balance_never_negative_witness :
    BalancesNonneg ⟨[(1, ⟨"@u", 20, "r", "l", 0, false⟩)], []⟩ ∧
    BalancesNonneg (applyOps ⟨[(1, ⟨"@u", 20, "r", "l", 0, false⟩)], []⟩
      [LedgerOp.purchase 1 "u" (some ⟨"star_100", 15000, 15⟩)
         (some "099999999") "goodname" WriteOutcome.ok "t1",
       LedgerOp.cashControl (some 1) "7" WriteOutcome.ok "t2",
       LedgerOp.approve ⟨1, 5, 20000, 9, "adm", "msg", some (some 2), 9,
         WriteOutcome.ok, "t3"⟩,
       LedgerOp.deny ⟨1, 5, 9, "adm", "msg", 9, "t4"⟩]) :=
  ⟨by decide, coin_balance_never_negative _ _ (by decide)⟩

/-- C2 counterexample: a concrete insufficient-funds purchase attempt
(balance 10, coin price 15, valid target username) ends with the
insufficient-funds outcome, yet the whole sheet state — including the
order log, which stays empty — is unchanged: no FAILED_INSUFFICIENT_FUNDS
audit record is appended, refuting the claim's "always appends" part. -/
theorem insufficient_purchase_appends_no_audit_record :
    receive_premium_username 1 "u" (some ⟨"premium_3_months", 15000, 15⟩)
        (some "099999999") "goodname" WriteOutcome.ok "t"
        ⟨[(1, ⟨"@user", 10, "r", "l", 0, false⟩)], []⟩ =
      (⟨[(1, ⟨"@user", 10, "r", "l", 0, false⟩)], []⟩,
        PurchaseOutcome.insufficient 10 15) ∧
    (receive_premium_username 1 "u" (some ⟨"premium_3_months", 15000, 15⟩)
        (some "099999999") "goodname" WriteOutcome.ok "t"
        ⟨[(1, ⟨"@user", 10, "r", "l", 0, false⟩)], []⟩).1.orders = [] :=
  ⟨rfl, rfl⟩

/-- C2 (amended): a purchase finalize whose re-read balance is strictly
below the coin price never mutates `coin_balance` and appends no audit
record at all — the state is returned unchanged and the user is only sent
the insufficient-funds message (the code writes no
FAILED_INSUFFICIENT_FUNDS order row). -/
theorem insufficient_purchase_no_mutation
    (uid : Nat) (uname : String) (d : ProductDetails) (phone : Option String)
    (raw : String) (w : WriteOutcome) (now : String) (s : SheetState)
    (hvalid : normalize_username raw ≠ "")
    (hlow : readBalance s uid < d.price_coin) :
    receive_premium_username uid uname (some d) phone raw w now s =
      (s, PurchaseOutcome.insufficient (readBalance s uid) d.price_coin) := by
  simp only [receive_premium_username]
  rw [if_neg hvalid, if_pos hlow]

/-- Witness for C2's amended theorem at the counterexample input. -/
theorem insufficient_purchase_no_mutation_witness :
    normalize_username "goodname" ≠ "" ∧
    readBalance ⟨[(1, ⟨"@user", 10, "r", "l", 0, false⟩)], []⟩ 1 < 15 ∧
    receive_premium_username 1 "u" (some ⟨"premium_3_months", 15000, 15⟩)
        (some "099999999") "goodname" WriteOutcome.ok "t"
        ⟨[(1, ⟨"@user", 10, "r", "l", 0, false⟩)], []⟩ =
      (⟨[(1, ⟨"@user", 10, "r", "l", 0, false⟩)], []⟩,
        PurchaseOutcome.insufficient 10 15) :=
  ⟨by rw [show normalize_username "goodname" = "@goodname" from rfl]; simp,
   by decide,
   (insufficient_purchase_no_mutation 1 "u" ⟨"premium_3_months", 15000, 15⟩
      (some "099999999") "goodname" WriteOutcome.ok "t"
      ⟨[(1, ⟨"@user", 10, "r", "l", 0, false⟩)], []⟩
      (by rw [show normalize_username "goodname" = "@goodname" from rfl]; simp)
      (by decide)).trans rfl⟩

/-- C3: an authorized second Approve or Deny on a control message that
already carries a terminal marker responds "already processed" and is a
ledger no-op — the sheet state (balances and order log) is returned
unchanged and no user notification is attempted; moreover a first
application's terminal rewrite (the APPROVED/DENIED message) does carry
the marker, so re-applying an action to it has no further ledger
effect. -/
theorem second_action_on_terminal_message_is_noop
    (a : ApproveInput) (d : DenyInput) (s t : SheetState)
    (haAuth : a.fromUserId = a.adminId)
    (hdAuth : d.fromUserId = d.adminId)
    (haTerm : hasTerminalMarker a.msgText = true)
    (hdTerm : hasTerminalMarker d.msgText = true) :
    ((admin_approve_receipt_callback a s).state = s ∧
     (admin_approve_receipt_callback a s).outcome =
       ApproveOutcome.alreadyProcessed ∧
     (admin_approve_receipt_callback a s).notify = none) ∧
    ((admin_deny_receipt_callback d t).state = t ∧
     (admin_deny_receipt_callback d t).outcome =
       DenyOutcome.alreadyProcessed ∧
     (admin_deny_receipt_callback d t).notified = false) ∧
    (∀ amount coins : Int, ∀ name : String, ∀ i : Nat, ∀ now orig : String,
      hasTerminalMarker (approvedMessageText amount coins name i now orig) =
        true) ∧
    (∀ name : String, ∀ i : Nat, ∀ now orig : String,
      hasTerminalMarker (deniedMessageText name i now orig) = true) := by
  unfold admin_approve_receipt_callback admin_deny_receipt_callback
  rw [if_neg (not_ne_iff.mpr haAuth), if_pos haTerm,
    if_neg (not_ne_iff.mpr hdAuth), if_pos hdTerm]
  exact ⟨⟨rfl, rfl, rfl⟩, ⟨rfl, rfl, rfl⟩,
    fun amount coins name i now orig =>
      approvedMessageText_terminal amount coins name i now orig,
    fun name i now orig => deniedMessageText_terminal name i now orig⟩

/-- Witness for C3: a concrete second click on an already-approved control
message is rejected as already processed with the ledger untouched. -/
theorem second_action_on_terminal_message_is_noop_witness :
    hasTerminalMarker "✅ APPROVED (500 MMK = 0 Coins) by @a (id:9) on t" =
      true ∧
    (admin_approve_receipt_callback
        ⟨7, 5, 500, 9, "a",
          "✅ APPROVED (500 MMK = 0 Coins) by @a (id:9) on t",
          some (some 1000), 9, WriteOutcome.ok, "t"⟩
        ⟨[(7, ⟨"@u", 3, "r", "l", 0, false⟩)], []⟩).state =
      ⟨[(7, ⟨"@u", 3, "r", "l", 0, false⟩)], []⟩ ∧
    (admin_deny_receipt_callback
        ⟨7, 5, 9, "a", "❌ DENIED by @a (id:9) on t", 9, "t"⟩
        ⟨[(7, ⟨"@u", 3, "r", "l", 0, false⟩)], []⟩).state =
      ⟨[(7, ⟨"@u", 3, "r", "l", 0, false⟩)], []⟩ :=
  ⟨rfl,
   (second_action_on_terminal_message_is_noop
      ⟨7, 5, 500, 9, "a", "✅ APPROVED (500 MMK = 0 Coins) by @a (id:9) on t",
        some (some 1000), 9, WriteOutcome.ok, "t"⟩
      ⟨7, 5, 9, "a", "❌ DENIED by @a (id:9) on t", 9, "t"⟩
      ⟨[(7, ⟨"@u", 3, "r", "l", 0, false⟩)], []⟩
      ⟨[(7, ⟨"@u", 3, "r", "l", 0, false⟩)], []⟩
      rfl rfl rfl rfl).1.1,
   (second_action_on_terminal_message_is_noop
      ⟨7, 5, 500, 9, "a", "✅ APPROVED (500 MMK = 0 Coins) by @a (id:9) on t",
        some (some 1000), 9, WriteOutcome.ok, "t"⟩
      ⟨7, 5, 9, "a", "❌ DENIED by @a (id:9) on t", 9, "t"⟩
      ⟨[(7, ⟨"@u", 3, "r", "l", 0, false⟩)], []⟩
      ⟨[(7, ⟨"@u", 3, "r", "l", 0, false⟩)], []⟩
      rfl rfl rfl rfl).2.1.1⟩

/-- C4 counterexample: a concrete authorized approval of 20,000 at rate 2
(0.5 coins per unit) on a fresh non-terminal control message credits
10,000 coins — yet the order log stays empty: no APPROVED_RECEIPT audit
record naming the admin and the nonce is appended, refuting that part of
the claim (the approval path contains no `log_order` call). -/
theorem approve_appends_no_audit_record :
    (admin_approve_receipt_callback
        ⟨7, 1700000000, 20000, 123456789, "admin",
          "Receipt from @u (id:7) Time: t", some (some 2), 123456789,
          WriteOutcome.ok, "t2"⟩
        ⟨[(7, ⟨"@u", 0, "r", "l", 0, false⟩)], []⟩).outcome =
      ApproveOutcome.approved 10000 10000 ∧
    (admin_approve_receipt_callback
        ⟨7, 1700000000, 20000, 123456789, "admin",
          "Receipt from @u (id:7) Time: t", some (some 2), 123456789,
          WriteOutcome.ok, "t2"⟩
        ⟨[(7, ⟨"@u", 0, "r", "l", 0, false⟩)], []⟩).state.orders = [] := by
  simp only [admin_approve_receipt_callback]
  norm_num [hasTerminalMarker, resolveCoinRate, readBalance, findUser,
    update_user_balance, updateFirst, truncQ]
  decide

/-- C4 (amended): for every authorized Approve on a non-terminal control
message whose amount is at least the coin rate, targeting a registered
user row, with a clean write: the workflow computes
`coins_to_add = ⌊amount * (1/rate)⌋` (at least 1), re-reads the current
balance, writes `current + coins_to_add` (refreshing the last-active
stamp), rewrites the control message with the terminal
"✅ APPROVED … by @admin" marker naming the acting admin, and notifies the
submitting user of the new balance — but, contrary to the claim, appends
no APPROVED_RECEIPT audit record: the order log is unchanged. -/
theorem approve_credits_and_marks_terminal
    (a : ApproveInput) (s : SheetState) (row : UserRow) (c : Int)
    (hauth : a.fromUserId = a.adminId)
    (hterm : hasTerminalMarker a.msgText = false)
    (hw : a.w = WriteOutcome.ok)
    (hrow : findUser s a.userId = some row)
    (hge : resolveCoinRate a.rateCfg ≤ (a.amount : ℚ))
    (hc : c = ⌊(a.amount : ℚ) * (1 / resolveCoinRate a.rateCfg)⌋) :
    1 ≤ c ∧
    (admin_approve_receipt_callback a s).outcome =
      ApproveOutcome.approved c (row.coin_balance + c) ∧
    findUser (admin_approve_receipt_callback a s).state a.userId =
      some { row with coin_balance := row.coin_balance + c,
                      last_active := a.now } ∧
    (admin_approve_receipt_callback a s).state.orders = s.orders ∧
    (admin_approve_receipt_callback a s).msgText =
      approvedMessageText a.amount c a.fromUserName a.fromUserId a.now
        a.msgText ∧
    hasTerminalMarker (admin_approve_receipt_callback a s).msgText = true ∧
    (admin_approve_receipt_callback a s).notify =
      some (c, row.coin_balance + c) := by
  have hrpos : 0 < resolveCoinRate a.rateCfg := resolveCoinRate_pos _
  have hq0 : 0 ≤ (a.amount : ℚ) / resolveCoinRate a.rateCfg :=
    div_nonneg (le_trans hrpos.le hge) hrpos.le
  have hdm : (a.amount : ℚ) / resolveCoinRate a.rateCfg =
      (a.amount : ℚ) * (1 / resolveCoinRate a.rateCfg) := by
    rw [div_eq_mul_inv, one_div]
  have hcoins : truncQ ((a.amount : ℚ) / resolveCoinRate a.rateCfg) = c := by
    rw [truncQ_eq_floor hq0, hdm, hc]
  have h1c : 1 ≤ c := by
    rw [hc, ← hdm]
    exact Int.le_floor.mpr (by rw [Int.cast_one]; exact (one_le_div hrpos).mpr hge)
  have hread : readBalance s a.userId = row.coin_balance := by
    unfold readBalance
    rw [hrow]
    rfl
  unfold admin_approve_receipt_callback
  rw [if_neg (not_ne_iff.mpr hauth), if_neg (by simp [hterm])]
  dsimp only
  rw [hcoins, hread, hw, if_pos (by omega : c > 0),
    update_user_balance_ok (row.coin_balance + c) a.now hrow]
  dsimp only
  rw [if_pos rfl]
  refine ⟨h1c, rfl, ?_, rfl, rfl, approvedMessageText_terminal _ _ _ _ _ _, rfl⟩
  dsimp only
  rw [findUser_updateFirst, hrow]
  rfl

/-- Witness for C4's amended theorem: the spec's own example — 20,000
currency units at ratio 0.5 coins per unit credit exactly 10,000 coins. -/
theorem approve_credits_and_marks_terminal_witness :
    resolveCoinRate (some (some 2)) ≤ ((20000 : Int) : ℚ) ∧
    (10000 : Int) = ⌊((20000 : Int) : ℚ) * (1 / resolveCoinRate (some (some 2)))⌋ ∧
    (admin_approve_receipt_callback
        ⟨7, 1700000000, 20000, 123456789, "admin",
          "Receipt from @u (id:7) Time: t", some (some 2), 123456789,
          WriteOutcome.ok, "t2"⟩
        ⟨[(7, ⟨"@u", 0, "r", "l", 0, false⟩)], []⟩).outcome =
      ApproveOutcome.approved 10000 (0 + 10000) ∧
    (admin_approve_receipt_callback
        ⟨7, 1700000000, 20000, 123456789, "admin",
          "Receipt from @u (id:7) Time: t", some (some 2), 123456789,
          WriteOutcome.ok, "t2"⟩
        ⟨[(7, ⟨"@u", 0, "r", "l", 0, false⟩)], []⟩).state.orders = [] :=
  ⟨by norm_num [resolveCoinRate],
   by norm_num [resolveCoinRate],
   (approve_credits_and_marks_terminal
      ⟨7, 1700000000, 20000, 123456789, "admin",
        "Receipt from @u (id:7) Time: t", some (some 2), 123456789,
        WriteOutcome.ok, "t2"⟩
      ⟨[(7, ⟨"@u", 0, "r", "l", 0, false⟩)], []⟩
      ⟨"@u", 0, "r", "l", 0, false⟩ 10000 rfl rfl rfl rfl
      (by norm_num [resolveCoinRate]) (by norm_num [resolveCoinRate])).2.1,
   (approve_credits_and_marks_terminal
      ⟨7, 1700000000, 20000, 123456789, "admin",
        "Receipt from @u (id:7) Time: t", some (some 2), 123456789,
        WriteOutcome.ok, "t2"⟩
      ⟨[(7, ⟨"@u", 0, "r", "l", 0, false⟩)], []⟩
      ⟨"@u", 0, "r", "l", 0, false⟩ 10000 rfl rfl rfl rfl
      (by norm_num [resolveCoinRate]) (by norm_num [resolveCoinRate])).2.2.2.1⟩

theorem findUser_log_order (o : Order) (st : SheetState) (uid : Nat) :
    findUser (log_order o st) uid = findUser st uid := rfl

/-- C5: in the purchase finalize step the order audit record marking the
order as placed (status "PENDING (Coin Paid)") is appended only after the
balance write reports success: whenever the finalize step changes the
order log at all, the write outcome was a clean success on a registered
row, the re-read balance covered the price, the row's balance was debited
by the coin price, and the appended record is exactly the placed-order
row. -/
theorem order_placed_only_after_confirmed_debit
    (uid : Nat) (uname : String) (d : ProductDetails) (phone : Option String)
    (raw : String) (w : WriteOutcome) (now : String) (s : SheetState)
    (hchange :
      (receive_premium_username uid uname (some d) phone raw w now s).1.orders ≠
        s.orders) :
    w = WriteOutcome.ok ∧
    d.price_coin ≤ readBalance s uid ∧
    (∃ row, findUser s uid = some row ∧
      findUser (receive_premium_username uid uname (some d) phone raw w now s).1
          uid =
        some { row with coin_balance := readBalance s uid - d.price_coin,
                        last_active := now }) ∧
    (receive_premium_username uid uname (some d) phone raw w now s).1.orders =
      s.orders ++ [⟨uid, uname, d.product_key, d.price_mmk, phone.getD "",
        normalize_username raw, "PENDING (Coin Paid)"⟩] := by
  by_cases hv : normalize_username raw = ""
  · exfalso
    apply hchange
    simp only [receive_premium_username]
    rw [if_pos hv]
  · by_cases hlow : readBalance s uid < d.price_coin
    · exfalso
      apply hchange
      simp only [receive_premium_username]
      rw [if_neg hv, if_pos hlow]
    · by_cases hok :
        (update_user_balance uid (readBalance s uid - d.price_coin) now w s).1 =
          true
      · obtain ⟨⟨row, hrow⟩, hwok⟩ := update_user_balance_fst_true hok
        subst hwok
        refine ⟨rfl, not_lt.mp hlow, ⟨row, hrow, ?_⟩, ?_⟩
        · simp only [receive_premium_username]
          rw [if_neg hv, if_neg hlow, if_pos hok]
          rw [update_user_balance_ok (readBalance s uid - d.price_coin) now hrow]
          dsimp only
          rw [findUser_log_order, findUser_updateFirst, hrow]
          rfl
        · simp only [receive_premium_username]
          rw [if_neg hv, if_neg hlow, if_pos hok]
          rw [update_user_balance_ok (readBalance s uid - d.price_coin) now hrow]
          rfl
      · exfalso
        apply hchange
        simp only [receive_premium_username]
        rw [if_neg hv, if_neg hlow, if_neg hok]
        exact update_user_balance_orders uid _ now w s

/-- Witness for C5: a concrete successful purchase (balance 20, price 15)
appends exactly the placed-order record and debits the balance to 5. -/
theorem order_placed_only_after_confirmed_debit_witness :
    (receive_premium_username 1 "u" (some ⟨"star_100", 15000, 15⟩)
        (some "099999999") "goodname" WriteOutcome.ok "t"
        ⟨[(1, ⟨"@u", 20, "r", "l", 0, false⟩)], []⟩).1.orders ≠
      ([] : List Order) ∧
    findUser (receive_premium_username 1 "u" (some ⟨"star_100", 15000, 15⟩)
        (some "099999999") "goodname" WriteOutcome.ok "t"
        ⟨[(1, ⟨"@u", 20, "r", "l", 0, false⟩)], []⟩).1 1 =
      some ⟨"@u", 5, "r", "t", 0, false⟩ ∧
    (receive_premium_username 1 "u" (some ⟨"star_100", 15000, 15⟩)
        (some "099999999") "goodname" WriteOutcome.ok "t"
        ⟨[(1, ⟨"@u", 20, "r", "l", 0, false⟩)], []⟩).1.orders =
      [⟨1, "u", "star_100", 15000, "099999999", "@goodname",
        "PENDING (Coin Paid)"⟩] := by
  have hch : (receive_premium_username 1 "u" (some ⟨"star_100", 15000, 15⟩)
      (some "099999999") "goodname" WriteOutcome.ok "t"
      ⟨[(1, ⟨"@u", 20, "r", "l", 0, false⟩)], []⟩).1.orders ≠
      ([] : List Order) := by
    rw [show (receive_premium_username 1 "u" (some ⟨"star_100", 15000, 15⟩)
        (some "099999999") "goodname" WriteOutcome.ok "t"
        ⟨[(1, ⟨"@u", 20, "r", "l", 0, false⟩)], []⟩).1.orders =
      [⟨1, "u", "star_100", 15000, "099999999", "@goodname",
        "PENDING (Coin Paid)"⟩] from rfl]
    simp
  have h := order_placed_only_after_confirmed_debit 1 "u"
    ⟨"star_100", 15000, 15⟩ (some "099999999") "goodname" WriteOutcome.ok "t"
    ⟨[(1, ⟨"@u", 20, "r", "l", 0, false⟩)], []⟩ hch
  exact ⟨hch, h.2.2.1.elim (fun row hr => by
    rw [hr.2, show row = ⟨"@u", 20, "r", "l", 0, false⟩ from
      (Option.some.injEq _ _).mp hr.1.symm ▸ rfl]
    rfl), h.2.2.2.trans rfl⟩

/-- C6 counterexample: with product price 5000 and a rate config entry
that is present but non-numeric, the claim demands the purchase flow
resolve `max(1, ⌊5000/1000⌋) = 5` using the default rate — but
`start_product_purchase` aborts with "Invalid price configuration"
(`float()`'s ValueError reaches the outer except instead of being
defaulted), resolving no coin price at all. -/
theorem purchase_aborts_on_nonnumeric_rate :
    startPurchasePriceCoin (some (some 5000)) (some none) = none ∧
    (5 : Int) = max 1 ⌊(5000 : ℚ) / 1000⌋ :=
  ⟨rfl, by norm_num⟩

/-- C6 (amended): price resolution is `max(1, ⌊P/rate⌋)` — deterministic,
integral, and at least 1 for every positive price — with the rate
defaulting to 1000 when unset or non-positive; but a present non-numeric
rate is defaulted only in the product keyboard, while
`start_product_purchase` aborts the purchase on it, resolving no price. -/
theorem price_resolution_floor_clamp (p : Int) (rateCfg : Option (Option ℚ))
    (hp : 0 < p) :
    0 < resolveCoinRate rateCfg ∧
    keyboardPriceCoin (some p) rateCfg =
      some (max 1 ⌊(p : ℚ) / resolveCoinRate rateCfg⌋) ∧
    (rateCfg ≠ some none →
      startPurchasePriceCoin (some (some p)) rateCfg =
        some (max 1 ⌊(p : ℚ) / resolveCoinRate rateCfg⌋)) ∧
    startPurchasePriceCoin (some (some p)) (some none) = none ∧
    (∀ v, keyboardPriceCoin (some p) rateCfg = some v → 1 ≤ v) := by
  have hrpos : 0 < resolveCoinRate rateCfg := resolveCoinRate_pos rateCfg
  have hq0 : 0 ≤ (p : ℚ) / resolveCoinRate rateCfg :=
    div_nonneg (by exact_mod_cast hp.le) hrpos.le
  have hkb : keyboardPriceCoin (some p) rateCfg =
      some (max 1 ⌊(p : ℚ) / resolveCoinRate rateCfg⌋) := by
    unfold keyboardPriceCoin
    dsimp only
    rw [truncQ_eq_floor hq0]
  refine ⟨hrpos, hkb, ?_, rfl, ?_⟩
  · intro hne
    unfold startPurchasePriceCoin
    rcases rateCfg with _ | _ | r
    · dsimp only
      rw [show resolveCoinRate none = 1000 from rfl] at hq0 ⊢
      rw [truncQ_eq_floor hq0]
    · exact absurd rfl hne
    · dsimp only
      rw [show resolveCoinRate (some (some r)) =
          (if r ≤ 0 then (1000 : ℚ) else r) from rfl] at hq0 ⊢
      rw [truncQ_eq_floor hq0]
  · intro v hv
    rw [hkb] at hv
    cases hv
    exact le_max_left 1 _

/-- Witness for C6's amended theorem: the spec's example — price 15,000 at
rate 1,000 resolves to exactly 15 coins. -/
theorem price_resolution_floor_clamp_witness :
    (0 : Int) < 15000 ∧
    keyboardPriceCoin (some 15000) (some (some 1000)) =
      some (max 1 ⌊(15000 : ℚ) / resolveCoinRate (some (some 1000))⌋) ∧
    keyboardPriceCoin (some 15000) (some (some 1000)) = some 15 :=
  ⟨by norm_num,
   (price_resolution_floor_clamp 15000 (some (some 1000)) (by norm_num)).2.1,
   ((price_resolution_floor_clamp 15000 (some (some 1000))
      (by norm_num)).2.1).trans (by norm_num [resolveCoinRate])⟩

/-- C7: for every broadcast run over N enumerated recipients in which
exactly K sends raise, the loop attempts every recipient in order — a
per-recipient failure never aborts the rest — and the final tally reports
`succeeded = N − K` and `failed = K`, where K is the number of recipients
whose send fails. -/
theorem broadcast_attempts_all_and_tallies (userIds : List Nat)
    (sendOk : Nat → Bool) :
    (execute_broadcast userIds sendOk).attempted = userIds ∧
    (execute_broadcast userIds sendOk).sent =
      userIds.length - (userIds.filter (fun u => !(sendOk u))).length ∧
    (execute_broadcast userIds sendOk).failed =
      (userIds.filter (fun u => !(sendOk u))).length := by
  unfold execute_broadcast
  rw [execute_broadcast_foldl]
  have h := length_filter_add_length_filter_not sendOk userIds
  refine ⟨by simp, ?_, by simp⟩
  dsimp only
  omega

/-- C8 counterexample: a ledger sheet whose id column holds the resolved
admin id 123456789 yields a recipient list containing the admin —
`get_all_user_ids` performs no admin exclusion and `execute_broadcast`
attempts a send to the admin, refuting the claim that the admin id never
appears in the iterated recipient list. -/
theorem broadcast_includes_admin_id :
    get_all_user_ids ["user_id", "123456789", "42"] = [123456789, 42] ∧
    123456789 ∈ (execute_broadcast
      (get_all_user_ids ["user_id", "123456789", "42"])
      (fun _ => true)).attempted := by
  constructor
  · rfl
  · rw [show (execute_broadcast (get_all_user_ids ["user_id", "123456789", "42"])
        (fun _ => true)).attempted = [123456789, 42] from rfl]
    simp

/-- C8 (amended): the broadcast fan-out enumerates every registered id
from the ledger's id column with no admin exclusion: any id whose row is
present — the administrator's included — appears in the recipient list and
is attempted by `execute_broadcast`'s loop. -/
theorem broadcast_enumerates_without_admin_exclusion
    (col : List String) (s : String) (a : Nat)
    (hmem : s ∈ col.drop 1) (hparse : parseNatDigits s.data = some a) :
    a ∈ get_all_user_ids col ∧
    ∀ sendOk : Nat → Bool,
      a ∈ (execute_broadcast (get_all_user_ids col) sendOk).attempted := by
  have h1 : a ∈ get_all_user_ids col := by
    unfold get_all_user_ids
    exact List.mem_filterMap.mpr ⟨s, hmem, hparse⟩
  refine ⟨h1, fun sendOk => ?_⟩
  unfold execute_broadcast
  rw [execute_broadcast_foldl]
  simpa using h1

/-- Witness for C8's amended theorem: the admin id 123456789, present as a
row of the id column, is enumerated and attempted. -/
theorem broadcast_enumerates_without_admin_exclusion_witness :
    "123456789" ∈ (["user_id", "123456789", "42"].drop 1) ∧
    parseNatDigits "123456789".data = some 123456789 ∧
    123456789 ∈ get_all_user_ids ["user_id", "123456789", "42"] :=
  ⟨by rw [show (["user_id", "123456789", "42"].drop 1) =
      ["123456789", "42"] from rfl]; exact List.mem_cons_self _ _,
   rfl,
   (broadcast_enumerates_without_admin_exclusion
      ["user_id", "123456789", "42"] "123456789" 123456789
      (by rw [show (["user_id", "123456789", "42"].drop 1) =
          ["123456789", "42"] from rfl]; exact List.mem_cons_self _ _)
      rfl).1⟩

/-- C9 counterexample: with a cached mapping from an earlier successful
read (cache holds `coin_rate_coin ↦ 1000` at timestamp 0), a
stale-triggered refresh whose sheet read fails returns the empty mapping
and overwrites the cache with it — the last good mapping is lost and an
empty mapping is returned even though a successful read had occurred,
refuting both failure clauses of the claim. -/
theorem config_read_failure_loses_cache :
    get_config_data false 100 25 none ⟨[("coin_rate_coin", "1000")], 0⟩ =
      ([], ⟨[], 100⟩) := rfl

/-- C9 (amended): `get_config_data` refreshes from the external store only
when `force_refresh` is set or the cached age exceeds the TTL — otherwise
it returns the cached mapping with the cache untouched; on a refresh the
cache is overwritten with whatever `_read_config_sheet` returned, and a
failed read returns (and caches) the empty mapping, discarding any
previously cached good mapping. -/
theorem get_config_data_refresh_policy (force : Bool) (now ttl : Int)
    (fetch : Option (List (String × String))) (c : ConfigCache) :
    (¬(force = true ∨ now - c.ts > ttl) →
      get_config_data force now ttl fetch c = (c.data, c)) ∧
    ((force = true ∨ now - c.ts > ttl) →
      get_config_data force now ttl fetch c =
        (readConfigSheet fetch, ⟨readConfigSheet fetch, now⟩)) ∧
    readConfigSheet none = [] := by
  unfold get_config_data
  refine ⟨fun h => ?_, fun h => ?_, rfl⟩
  · rw [if_neg (by simpa using h)]
  · rw [if_pos (by simpa using h)]

/-- Witness for C9's amended theorem: a stale failed refresh loses the
cached mapping; a fresh cache is served untouched. -/
theorem get_config_data_refresh_policy_witness :
    ((false : Bool) = true ∨ (100 : Int) - 0 > 25) ∧
    get_config_data false 100 25 none ⟨[("k", "v")], 0⟩ = ([], ⟨[], 100⟩) ∧
    ¬((false : Bool) = true ∨ (10 : Int) - 0 > 25) ∧
    get_config_data false 10 25 none ⟨[("k", "v")], 0⟩ =
      ([("k", "v")], ⟨[("k", "v")], 0⟩) :=
  ⟨Or.inr (by norm_num),
   ((get_config_data_refresh_policy false 100 25 none
      ⟨[("k", "v")], 0⟩).2.1 (Or.inr (by norm_num))).trans rfl,
   by decide,
   ((get_config_data_refresh_policy false 10 25 none
      ⟨[("k", "v")], 0⟩).1 (by decide)).trans rfl⟩

/-- C10: when an authorized Approve on a non-terminal control message
carries a non-negative amount strictly below the coin rate — so that
`⌊amount/rate⌋ = 0` — the handler performs no balance write at all: the
whole sheet state, the user's ledger row included (balance and every other
field), is returned untouched; yet it still rewrites the control message
with the terminal "✅ APPROVED … = 0 Coins" marker and notifies the user
of an approval crediting 0 coins at an unchanged balance. -/
theorem zero_credit_approve_leaves_ledger_untouched
    (a : ApproveInput) (s : SheetState)
    (hauth : a.fromUserId = a.adminId)
    (hterm : hasTerminalMarker a.msgText = false)
    (hamt : 0 ≤ a.amount)
    (hlt : (a.amount : ℚ) < resolveCoinRate a.rateCfg) :
    admin_approve_receipt_callback a s =
      ⟨s, approvedMessageText a.amount 0 a.fromUserName a.fromUserId a.now
          a.msgText,
        some (0, readBalance s a.userId),
        ApproveOutcome.approved 0 (readBalance s a.userId)⟩ ∧
    hasTerminalMarker (admin_approve_receipt_callback a s).msgText = true := by
  have hz : truncQ ((a.amount : ℚ) / resolveCoinRate a.rateCfg) = 0 :=
    truncQ_div_eq_zero (by exact_mod_cast hamt) (resolveCoinRate_pos _) hlt
  have hmain : admin_approve_receipt_callback a s =
      ⟨s, approvedMessageText a.amount 0 a.fromUserName a.fromUserId a.now
          a.msgText,
        some (0, readBalance s a.userId),
        ApproveOutcome.approved 0 (readBalance s a.userId)⟩ := by
    unfold admin_approve_receipt_callback
    rw [if_neg (not_ne_iff.mpr hauth), if_neg (by simp [hterm])]
    dsimp only
    rw [hz, if_neg (by norm_num : ¬(0 : Int) > 0)]
    dsimp only
    rw [if_pos rfl, add_zero]
  exact ⟨hmain, by rw [hmain]; exact approvedMessageText_terminal _ _ _ _ _ _⟩

/-- Witness for C10: amount 500 below rate 1000 — approval credits 0
coins, the row with balance 3 is untouched, and the user is told the
unchanged balance. -/
theorem zero_credit_approve_leaves_ledger_untouched_witness :
    (0 : Int) ≤ 500 ∧
    ((500 : Int) : ℚ) < resolveCoinRate (some (some 1000)) ∧
    admin_approve_receipt_callback
        ⟨7, 5, 500, 9, "a", "Receipt from @u", some (some 1000), 9,
          WriteOutcome.ok, "t"⟩
        ⟨[(7, ⟨"@u", 3, "r", "l", 0, false⟩)], []⟩ =
      ⟨⟨[(7, ⟨"@u", 3, "r", "l", 0, false⟩)], []⟩,
        approvedMessageText 500 0 "a" 9 "t" "Receipt from @u",
        some (0, 3), ApproveOutcome.approved 0 3⟩ :=
  ⟨by norm_num, by norm_num [resolveCoinRate],
   ((zero_credit_approve_leaves_ledger_untouched
      ⟨7, 5, 500, 9, "a", "Receipt from @u", some (some 1000), 9,
        WriteOutcome.ok, "t"⟩
      ⟨[(7, ⟨"@u", 3, "r", "l", 0, false⟩)], []⟩
      rfl rfl (by norm_num) (by norm_num [resolveCoinRate])).1).trans rfl⟩

end MeowPremium
